import Mathlib

/-!
Verification development for `epengine/workflows/simulate.py`: the simulate
step of the EnergyPlus simulation workflow.  The Python source is shallowly
embedded below: pure helpers become Lean functions, the exception raised when
reading the end-of-run summary file becomes an `Except` value, and pandas
DataFrames become a small record of index names, column names and rows.
-/

/-- Cell value of a result table: a string or a natural-number count. -/
inductive Val where
  | s (v : String)
  | n (v : Nat)
deriving DecidableEq, Repr

/-- Embedding of a pandas DataFrame as produced by the simulate step: the
MultiIndex level names, the column names, and the rows, each row carrying its
index tuple and its column values. -/
structure DF where
  indexNames : List String
  columns : List String
  rows : List (List Val × List Val)
deriving DecidableEq, Repr

/-- Modelled from the spec: a Simulation Spec (class `SimulationSpec` in
`epengine/models/leafs.py`, not under `src/`).  Per the spec it carries
free-form identifying metadata fields in a declared order, each possibly null;
the Hatchet context handle is not a dumped field. -/
structure SimSpec where
  fields : List (String × Option Val)
deriving DecidableEq, Repr

/-- Modelled from the spec: pydantic `model_dump(mode="json", exclude_none=True)`
on the spec keeps exactly the non-null fields, in the declared field order. -/
def model_dump (spec : SimSpec) : List (String × Val) :=
  spec.fields.filterMap fun p => p.2.map fun v => (p.1, v)

/-- Python dict item assignment `d[k] = v` on an insertion-ordered dict:
overwrite in place when the key exists, otherwise append at the end. -/
def dictSet (d : List (String × Val)) (k : String) (v : Val) :
    List (String × Val) :=
  if d.any fun p => p.1 = k then
    d.map fun p => if p.1 = k then (k, v) else p
  else
    d ++ [(k, v)]

/-- Embedding of `_generate_index_data`: dump the spec's non-null fields,
then set the key `"workflow_run_id"` to the run identifier obtained from the
Hatchet context. -/
def generate_index_data (spec : SimSpec) (workflow_run_id : String) :
    List (String × Val) :=
  dictSet (model_dump spec) "workflow_run_id" (Val.s workflow_run_id)

/-- Python `\s` on the ASCII range, as used by the two summary-line regexes. -/
def pySpace (c : Char) : Bool :=
  c = ' ' || c = '\t' || c = '\n' || c = '\r' || c = '\x0b' || c = '\x0c'

/-- Python `\d` on the ASCII range. -/
def pyDigit (c : Char) : Bool :=
  '0' ≤ c && c ≤ '9'

/-- Numeric value of a digit run, as Python `int` on the captured group. -/
def digitsToNat (l : List Char) : Nat :=
  l.foldl (fun n c => 10 * n + (c.toNat - '0'.toNat)) 0

/-- One attempt to match `\s(\d+)\s<lit>` at the head of `s` (the trailing
`.*` of the source regexes constrains nothing): a whitespace character, a
maximal nonempty digit run (a digit is never `\s`, so no backtracking arises),
a whitespace character, then the literal.  Returns the captured count. -/
def matchTailAt (lit : List Char) (s : List Char) : Option Nat :=
  match s with
  | [] => none
  | c :: rest =>
    if pySpace c then
      if rest.takeWhile pyDigit = [] then none
      else
        match rest.drop (rest.takeWhile pyDigit).length with
        | [] => none
        | c2 :: r2 =>
          if pySpace c2 && List.isPrefixOf lit r2 then
            some (digitsToNat (rest.takeWhile pyDigit))
          else none
    else none

/-- Greedy backtracking of the leading `.*`: try the split point `i` (the
number of characters `.*` consumes), longest first, down to the empty match,
exactly as Python's greedy star does under `re.match`. -/
def searchDown (lit : List Char) (s : List Char) : Nat → Option Nat
  | 0 => matchTailAt lit s
  | i + 1 =>
    match matchTailAt lit (s.drop (i + 1)) with
    | some n => some n
    | none => searchDown lit s i

/-- Embedding of `re.match(r".*\s(\d+)\s<lit>.*", s)` returning the captured
group as a number: the match is anchored at the start of `s`, and the leading
`.*` cannot cross a newline, so its split point ranges over the newline-free
prefix of `s` only. -/
def reMatchGroup (lit : List Char) (s : List Char) : Option Nat :=
  searchDown lit s (s.takeWhile fun c => c ≠ '\n').length

/-- Embedding of the severe-error count extraction in
`_generate_error_warning_counts_df`: `re.match(r".*\s(\d+)\sSevere Errors.*")`,
defaulting to `0` when there is no match. -/
def severe_ct (errStr : String) : Nat :=
  (reMatchGroup "Severe Errors".data errStr.data).getD 0

/-- Embedding of the warning count extraction in
`_generate_error_warning_counts_df`: `re.match(r".*\s(\d+)\sWarning.*")`,
defaulting to `0` when there is no match. -/
def warning_ct (errStr : String) : Nat :=
  (reMatchGroup "Warning".data errStr.data).getD 0

/-- Embedding of `_generate_error_warning_counts_df`.  Reading
`eplusout.end` is fallible (`end_file.read_text()` raises when the file is
absent); the file's state is passed in as `Option String` and a missing file
becomes an `Except.error`, which the caller does not catch.  On a read
success the DataFrame has the columns `warnings`, `severe` in that order and
one row indexed by the index data. -/
def generate_error_warning_counts_df (endFile : Option String)
    (index_data : List (String × Val)) : Except String DF :=
  match endFile with
  | none => Except.error "FileNotFoundError: eplusout.end"
  | some errStr =>
    Except.ok
      { indexNames := index_data.map Prod.fst
      , columns := ["warnings", "severe"]
      , rows := [(index_data.map Prod.snd,
                  [Val.n (warning_ct errStr), Val.n (severe_ct errStr)])] }

/-- Modelled from the spec: `postprocess` (from `epengine/utils/results.py`,
not under `src/`) extracts each requested tabular summary section from the
structured output store, keeps the fixed value columns, and indexes every row
by the canonical index data. -/
def postprocess (sql : List (String × List (List Val)))
    (index_data : List (String × Val))
    (tabular_lookups : List (String × String)) (columns : List String) :
    List (String × DF) :=
  tabular_lookups.filterMap fun lk =>
    (sql.lookup lk.1).map fun rows =>
      (lk.1 ++ "_" ++ lk.2,
       { indexNames := index_data.map Prod.fst
       , columns := columns
       , rows := rows.map fun r => (index_data.map Prod.snd, r) })

/-- Outcome of the external engine call `idf.simulate()` together with the
post-run artifacts: on failure the exception's string form; on success the
state of the `eplusout.end` summary file (absent or its text) and the
structured output store behind `idf.sql_file`. -/
inductive EngineOutcome where
  | failure (msg : String)
  | success (endFile : Option String) (sql : List (String × List (List Val)))
deriving DecidableEq, Repr

/-- Embedding of the body of `Simulate.simulate` from the engine call onward.
The `try` block covers only `idf.simulate()`: an engine exception is caught
and converted into a one-row `err` table; in the `else` branch the summary
read may raise, and that exception propagates uncaught (an `Except.error`).
On success the extracted tables are followed by the diagnostics table under
the key `"energyplus_message_counts"`. -/
def simulate (spec : SimSpec) (workflow_run_id : String)
    (outcome : EngineOutcome) : Except String (List (String × DF)) :=
  match outcome with
  | EngineOutcome.failure msg =>
    let index_data := generate_index_data spec workflow_run_id
    Except.ok
      [("err",
        { indexNames := index_data.map Prod.fst
        , columns := ["msg"]
        , rows := [(index_data.map Prod.snd, [Val.s msg])] })]
  | EngineOutcome.success endFile sql =>
    let index_data := generate_index_data spec workflow_run_id
    match generate_error_warning_counts_df endFile index_data with
    | Except.error e => Except.error e
    | Except.ok err_df =>
      let dfs := postprocess sql index_data
        [("AnnualBuildingUtilityPerformanceSummary", "End Uses")]
        ["Electricity", "Natural Gas", "Fuel Oil No 2"]
      Except.ok (dfs ++ [("energyplus_message_counts", err_df)])

/-- An EnergyPlus input object as handled by `add_sizing_design_day`: its
object type (`obj.key`), its `File_Name` attribute when the object has one,
and its remaining field values. -/
structure IdfObject where
  key : String
  file_Name : Option String
  vals : List String
deriving DecidableEq, Repr

/-- Python `str.upper` as applied to the object-type keys involved: each
character is uppercased independently. -/
def pyUpper (s : String) : String := ⟨s.data.map Char.toUpper⟩

/-- Python `str.endswith`: the suffix test on the character sequence. -/
def pyEndsWith (s suffix : String) : Bool := List.isSuffixOf suffix.data s.data

/-- An IDF document's `idfobjects` mapping viewed as a total function from
(uppercase) object-type key to the list of objects of that type. -/
def IdfDoc : Type := String → List IdfObject

/-- Embedding of `idf.removeallidfobjects(objtype)`: empty the sequence
stored under the given object-type key. -/
def removeallidfobjects (doc : IdfDoc) (objtype : String) : IdfDoc :=
  fun k => if k = objtype then [] else doc k

/-- Embedding of `idf.addidfobject(obj)`: append the object to the sequence
stored under its own uppercased type key. -/
def addidfobject (doc : IdfDoc) (obj : IdfObject) : IdfDoc :=
  fun k => if k = pyUpper obj.key then doc k ++ [obj] else doc k

/-- The exclusion set of object-type keys in `add_sizing_design_day`. -/
def excludedKeys : List String :=
  ["SITE:PRECIPITATION", "ROOFIRRIGATION", "SCHEDULE:FILE"]

/-- The loop's `continue` condition: the object's uppercased key is in the
exclusion set and `getattr(obj, "File_Name", "rain").endswith("rain")` — an
object without a `File_Name` attribute defaults to `"rain"`, which ends with
`"rain"`. -/
def skipsObject (obj : IdfObject) : Bool :=
  decide (pyUpper obj.key ∈ excludedKeys)
    && pyEndsWith (obj.file_Name.getD "rain") "rain"

/-- One iteration of the inner loop of `add_sizing_design_day` on object
`obj` taken from the secondary sequence stored under key `objtype`:
either `continue`, or remove all of the primary's objects of type `objtype`
and add `obj`. -/
def injectOne (doc : IdfDoc) (objtype : String) (obj : IdfObject) : IdfDoc :=
  if skipsObject obj then doc
  else addidfobject (removeallidfobjects doc objtype) obj

/-- The inner loop of `add_sizing_design_day` over one secondary sequence. -/
def injectSeq (doc : IdfDoc) (objtype : String) (seq : List IdfObject) :
    IdfDoc :=
  seq.foldl (fun d o => injectOne d objtype o) doc

/-- Embedding of `add_sizing_design_day`: fold over the secondary document's
`idfobjects.items()` in insertion order.  The source's `if sequence:` guard
only skips iterating an empty sequence, which the fold does vacuously. -/
def add_sizing_design_day (doc : IdfDoc)
    (ddy : List (String × List IdfObject)) : IdfDoc :=
  ddy.foldl (fun d p => injectSeq d p.1 p.2) doc

/-- Extract the table list of a returned (non-raising) simulate step; an
uncaught exception yields no tables. -/
def tablesOf (r : Except String (List (String × DF))) : List (String × DF) :=
  match r with
  | Except.ok dfs => dfs
  | Except.error _ => []

/-! ### Helper lemmas about the design-day merge -/

lemma injectSeq_nil (d : IdfDoc) (t : String) : injectSeq d t [] = d := rfl

lemma injectSeq_cons (d : IdfDoc) (t : String) (o : IdfObject)
    (os : List IdfObject) :
    injectSeq d t (o :: os) = injectSeq (injectOne d t o) t os := rfl

lemma add_sizing_nil (d : IdfDoc) : add_sizing_design_day d [] = d := rfl

lemma add_sizing_cons (d : IdfDoc) (p : String × List IdfObject)
    (rest : List (String × List IdfObject)) :
    add_sizing_design_day d (p :: rest)
      = add_sizing_design_day (injectSeq d p.1 p.2) rest := rfl

lemma injectOne_of_skip (d : IdfDoc) (t : String) (obj : IdfObject)
    (h : skipsObject obj = true) : injectOne d t obj = d := by
  simp [injectOne, h]

lemma skipsObject_eq_false_of_not_excluded (obj : IdfObject)
    (h : pyUpper obj.key ∉ excludedKeys) : skipsObject obj = false := by
  simp [skipsObject, h]

lemma injectOne_apply_self (d : IdfDoc) (t : String) (obj : IdfObject)
    (hns : skipsObject obj = false) (hk : pyUpper obj.key = t) :
    injectOne d t obj t = [obj] := by
  simp [injectOne, hns, addidfobject, removeallidfobjects, hk]

lemma injectOne_apply_other (d : IdfDoc) (t' : String) (obj : IdfObject)
    (t : String) (h1 : t ≠ t') (h2 : t ≠ pyUpper obj.key) :
    injectOne d t' obj t = d t := by
  by_cases hs : skipsObject obj
  · simp [injectOne, hs]
  · simp [injectOne, hs, addidfobject, removeallidfobjects, h1, h2]

lemma injectSeq_apply_other (t t' : String) (seq : List IdfObject) :
    ∀ d : IdfDoc, t ≠ t' → (∀ o ∈ seq, t ≠ pyUpper o.key) →
      injectSeq d t' seq t = d t := by
  induction seq with
  | nil => intro d _ _; rfl
  | cons o os ih =>
    intro d h1 h2
    rw [injectSeq_cons,
      ih _ h1 fun o' ho' => h2 o' (List.mem_cons_of_mem _ ho')]
    exact injectOne_apply_other d t' o t h1 (h2 o (List.mem_cons_self _ _))

lemma injectSeq_all_skip (t' : String) (seq : List IdfObject) :
    ∀ d : IdfDoc, (∀ o ∈ seq, skipsObject o = true) → injectSeq d t' seq = d := by
  induction seq with
  | nil => intro d _; rfl
  | cons o os ih =>
    intro d h
    rw [injectSeq_cons, injectOne_of_skip d t' o (h o (List.mem_cons_self _ _))]
    exact ih d fun o' ho' => h o' (List.mem_cons_of_mem _ ho')

lemma injectSeq_apply_last (t : String) (seq : List IdfObject) :
    ∀ (d : IdfDoc) (hne : seq ≠ []),
      (∀ o ∈ seq, skipsObject o = false) → (∀ o ∈ seq, pyUpper o.key = t) →
      injectSeq d t seq t = [seq.getLast hne] := by
  induction seq with
  | nil => intro d hne _ _; exact absurd rfl hne
  | cons o os ih =>
    intro d hne hns hwf
    rcases eq_or_ne os [] with hos | hos
    · subst hos
      rw [injectSeq_cons, injectSeq_nil]
      exact injectOne_apply_self d t o (hns o (List.mem_cons_self _ _))
        (hwf o (List.mem_cons_self _ _))
    · rw [injectSeq_cons,
        ih (injectOne d t o) hos
          (fun o' ho' => hns o' (List.mem_cons_of_mem _ ho'))
          (fun o' ho' => hwf o' (List.mem_cons_of_mem _ ho')),
        List.getLast_cons hos]

lemma add_sizing_apply_preserved (t : String)
    (ddy : List (String × List IdfObject)) :
    ∀ d : IdfDoc,
      (∀ p ∈ ddy, p.1 = t → ∀ o ∈ p.2, skipsObject o = true) →
      (∀ p ∈ ddy, p.1 ≠ t → ∀ o ∈ p.2, t ≠ pyUpper o.key) →
      add_sizing_design_day d ddy t = d t := by
  induction ddy with
  | nil => intro d _ _; rfl
  | cons p rest ih =>
    intro d h1 h2
    rw [add_sizing_cons,
      ih _ (fun q hq => h1 q (List.mem_cons_of_mem _ hq))
        (fun q hq => h2 q (List.mem_cons_of_mem _ hq))]
    rcases eq_or_ne p.1 t with he | hne
    · rw [injectSeq_all_skip p.1 p.2 d (h1 p (List.mem_cons_self _ _) he)]
    · exact injectSeq_apply_other t p.1 p.2 d (Ne.symm hne)
        (h2 p (List.mem_cons_self _ _) hne)

/-! ### Helper lemmas about the diagnostics extraction and the result tables -/

lemma matchTailAt_occurs (lit : List Char) :
    ∀ (s : List Char) (n : Nat), matchTailAt lit s = some n → lit <:+: s := by
  intro s n h
  cases s with
  | nil => simp [matchTailAt] at h
  | cons c rest =>
    simp only [matchTailAt] at h
    by_cases h1 : pySpace c = true
    · rw [if_pos h1] at h
      by_cases h2 : rest.takeWhile pyDigit = []
      · rw [if_pos h2] at h
        exact absurd h (by simp)
      · rw [if_neg h2] at h
        rcases hdrop : rest.drop (rest.takeWhile pyDigit).length with _ | ⟨c2, r2⟩
        · rw [hdrop] at h
          exact absurd h (by simp)
        · rw [hdrop] at h
          by_cases h3 : (pySpace c2 && List.isPrefixOf lit r2) = true
          · have hp : lit <+: r2 :=
              List.isPrefixOf_iff_prefix.mp (Bool.and_eq_true _ _ |>.mp h3).2
            have hs1 : (c2 :: r2) <:+ rest := hdrop ▸ List.drop_suffix _ _
            have hs2 : r2 <:+ c :: rest :=
              ((List.suffix_cons c2 r2).trans hs1).trans (List.suffix_cons c rest)
            exact hp.isInfix.trans hs2.isInfix
          · exact absurd h (by simp [h3])
    · rw [if_neg h1] at h
      exact absurd h (by simp)

lemma searchDown_occurs (lit s : List Char) :
    ∀ (i n : Nat), searchDown lit s i = some n → lit <:+: s := by
  intro i
  induction i with
  | zero => intro n h; exact matchTailAt_occurs lit s n h
  | succ i ih =>
    intro n h
    simp only [searchDown] at h
    rcases hm : matchTailAt lit (s.drop (i + 1)) with _ | m
    · rw [hm] at h
      exact ih n h
    · exact (matchTailAt_occurs lit (s.drop (i + 1)) m hm).trans
        (List.drop_suffix _ _).isInfix

lemma reMatchGroup_eq_none (lit s : List Char) (h : ¬ lit <:+: s) :
    reMatchGroup lit s = none := by
  rcases hm : reMatchGroup lit s with _ | n
  · rfl
  · exact absurd (searchDown_occurs lit s _ n hm) h

lemma severe_ct_eq_zero (s : String) (h : ¬ "Severe Errors".data <:+: s.data) :
    severe_ct s = 0 := by
  unfold severe_ct
  rw [reMatchGroup_eq_none _ _ h]
  rfl

lemma warning_ct_eq_zero (s : String) (h : ¬ "Warning".data <:+: s.data) :
    warning_ct s = 0 := by
  unfold warning_ct
  rw [reMatchGroup_eq_none _ _ h]
  rfl

lemma postprocess_indexNames (sql : List (String × List (List Val)))
    (idx : List (String × Val)) (lks : List (String × String))
    (cols : List String) (q : String × DF)
    (hq : q ∈ postprocess sql idx lks cols) :
    q.2.indexNames = idx.map Prod.fst := by
  simp only [postprocess, List.mem_filterMap] at hq
  rcases hq with ⟨lk, -, hlk⟩
  rcases hopt : sql.lookup lk.1 with _ | rows
  · rw [hopt] at hlk
    exact absurd hlk (by simp)
  · rw [hopt] at hlk
    simp only [Option.map_some'] at hlk
    injection hlk with h
    rw [← h]

/-! ### Concrete instances used by counterexamples and witnesses -/

/-- A concrete spec with one non-null metadata field and one null field. -/
def specA : SimSpec := ⟨[("zone", some (Val.s "A")), ("ddy_path", none)]⟩

/-- A concrete structured output store holding the looked-up summary. -/
def sqlA : List (String × List (List Val)) :=
  [("AnnualBuildingUtilityPerformanceSummary", [[Val.n 12, Val.n 7, Val.n 0]])]

/-- The performance table the success path produces on `specA`/`sqlA`. -/
def perfTableA : String × DF :=
  ("AnnualBuildingUtilityPerformanceSummary_End Uses",
   { indexNames := ["zone", "workflow_run_id"]
   , columns := ["Electricity", "Natural Gas", "Fuel Oil No 2"]
   , rows := [([Val.s "A", Val.s "run-1"], [Val.n 12, Val.n 7, Val.n 0])] })

/-- The error table the failure path produces on `specA` with message `boom`. -/
def errTableA : String × DF :=
  ("err",
   { indexNames := ["zone", "workflow_run_id"]
   , columns := ["msg"]
   , rows := [([Val.s "A", Val.s "run-1"], [Val.s "boom"])] })

/-- A concrete primary document holding one legitimate schedule-file object. -/
def primaryA : IdfDoc :=
  fun k => if k = "SCHEDULE:FILE"
    then [⟨"Schedule:File", some "legit_schedule.csv", ["keep"]⟩] else []

/-- A secondary schedule-file object whose file reference does not end in
the sentinel suffix. -/
def csvObjA : IdfObject := ⟨"Schedule:File", some "setpoints.csv", ["new"]⟩

/-- A secondary schedule-file object whose file reference ends in `rain`. -/
def rainObjA : IdfObject := ⟨"Schedule:File", some "placeholder.rain", ["stub"]⟩

/-- A secondary object in an excluded category with no `File_Name` field. -/
def roofObjA : IdfObject := ⟨"RoofIrrigation", none, []⟩

/-- A concrete primary document holding one old design-day object. -/
def primaryB : IdfDoc :=
  fun k => if k = "SIZINGPERIOD:DESIGNDAY"
    then [⟨"SizingPeriod:DesignDay", none, ["old"]⟩] else []

/-- First design-day object of the secondary sequence. -/
def ddObj1 : IdfObject := ⟨"SizingPeriod:DesignDay", none, ["clg"]⟩

/-- Second (last) design-day object of the secondary sequence. -/
def ddObj2 : IdfObject := ⟨"SizingPeriod:DesignDay", none, ["htg"]⟩

/-! ### Claim theorems -/

/-- C1: for every Simulation Spec and Run Identifier, every table of a
successful attempt and the single `err` table of a failed attempt carry the
same index key names — the spec's non-null field names followed by the
run-identifier key — in the same order. -/
theorem index_keys_uniform_across_outcomes
    (spec : SimSpec) (rid endText msg : String)
    (sql : List (String × List (List Val)))
    (pS pF : String × DF)
    (hpS : pS ∈ tablesOf (simulate spec rid (EngineOutcome.success (some endText) sql)))
    (hpF : pF ∈ tablesOf (simulate spec rid (EngineOutcome.failure msg))) :
    pS.2.indexNames = pF.2.indexNames ∧
      pF.2.indexNames = (generate_index_data spec rid).map Prod.fst := by
  have hredF : tablesOf (simulate spec rid (EngineOutcome.failure msg))
      = [("err",
          { indexNames := (generate_index_data spec rid).map Prod.fst
          , columns := ["msg"]
          , rows := [((generate_index_data spec rid).map Prod.snd,
                      [Val.s msg])] })] := rfl
  have hredS : tablesOf (simulate spec rid (EngineOutcome.success (some endText) sql))
      = postprocess sql (generate_index_data spec rid)
          [("AnnualBuildingUtilityPerformanceSummary", "End Uses")]
          ["Electricity", "Natural Gas", "Fuel Oil No 2"]
        ++ [("energyplus_message_counts",
             { indexNames := (generate_index_data spec rid).map Prod.fst
             , columns := ["warnings", "severe"]
             , rows := [((generate_index_data spec rid).map Prod.snd,
                         [Val.n (warning_ct endText), Val.n (severe_ct endText)])] })] := rfl
  rw [hredF] at hpF
  rw [hredS] at hpS
  have hF : pF.2.indexNames = (generate_index_data spec rid).map Prod.fst := by
    obtain rfl := List.mem_singleton.mp hpF
    rfl
  have hS : pS.2.indexNames = (generate_index_data spec rid).map Prod.fst := by
    rcases List.mem_append.mp hpS with h | h
    · exact postprocess_indexNames _ _ _ _ _ h
    · obtain rfl := List.mem_singleton.mp h
      rfl
  exact ⟨hS.trans hF.symm, hF⟩

/-- Witness for C1: a concrete attempt where the success path yields the
performance table and the failure path the error table, sharing index keys. -/
theorem index_keys_uniform_across_outcomes_instance :
    perfTableA.2.indexNames = errTableA.2.indexNames ∧
      errTableA.2.indexNames = (generate_index_data specA "run-1").map Prod.fst :=
  index_keys_uniform_across_outcomes specA "run-1" "ok" "boom" sqlA
    perfTableA errTableA (by decide) (by decide)

/-- C2: for every exception message raised by the engine call, the simulate
step does not re-raise; it returns exactly one table named `err` with exactly
one row whose `msg` column holds the exception's string form, indexed by the
canonical index. -/
theorem simulate_engine_failure_returns_err_table
    (spec : SimSpec) (rid msg : String) :
    simulate spec rid (EngineOutcome.failure msg)
      = Except.ok
          [("err",
            { indexNames := (generate_index_data spec rid).map Prod.fst
            , columns := ["msg"]
            , rows := [((generate_index_data spec rid).map Prod.snd,
                        [Val.s msg])] })] := rfl

/-- C3 counterexample: on a concrete spec with one non-null field, the
canonical index's keys end with `workflow_run_id`, not with the literal key
`run_id` the claim states. -/
theorem index_last_key_not_run_id :
    (generate_index_data specA "run-1").map Prod.fst = ["zone", "workflow_run_id"] ∧
      (generate_index_data specA "run-1").map Prod.fst ≠ ["zone", "run_id"] := by
  decide

/-- C3 (amended): for every Simulation Spec and Run Identifier, the canonical
index's keys are the spec's non-null field names in declared order followed by
the literal key `workflow_run_id`, which holds the Run Identifier. -/
theorem index_keys_end_with_workflow_run_id
    (spec : SimSpec) (rid : String)
    (h : "workflow_run_id" ∉ (model_dump spec).map Prod.fst) :
    (generate_index_data spec rid).map Prod.fst
        = (model_dump spec).map Prod.fst ++ ["workflow_run_id"] ∧
      ("workflow_run_id", Val.s rid) ∈ generate_index_data spec rid := by
  have hany : ((model_dump spec).any fun p => decide (p.1 = "workflow_run_id"))
      = false := by
    rw [← Bool.not_eq_true, List.any_eq_true]
    rintro ⟨p, hp, hpk⟩
    exact h (of_decide_eq_true hpk ▸ List.mem_map_of_mem Prod.fst hp)
  have hset : generate_index_data spec rid
      = model_dump spec ++ [("workflow_run_id", Val.s rid)] := by
    unfold generate_index_data dictSet
    rw [hany]
    rfl
  constructor
  · rw [hset, List.map_append]
    rfl
  · rw [hset]
    exact List.mem_append_right _ (List.mem_singleton_self _)

/-- Witness for C3 (amended) on the concrete spec `specA`. -/
theorem index_keys_end_with_workflow_run_id_instance :
    (generate_index_data specA "run-1").map Prod.fst
        = (model_dump specA).map Prod.fst ++ ["workflow_run_id"] ∧
      ("workflow_run_id", Val.s "run-1") ∈ generate_index_data specA "run-1" :=
  index_keys_end_with_workflow_run_id specA "run-1" (by decide)

/-- C4 counterexample: on the claimed two-line summary text the warning count
extracted by the code is 0, not 7 — `re.match` is anchored at the start and
the dot does not cross the newline, so the `Warning` line is never reached. -/
theorem warning_count_second_line_unseen :
    warning_ct "...  3 Severe Errors...\n...  7 Warning...\n" = 0 ∧
      warning_ct "...  3 Severe Errors...\n...  7 Warning...\n" ≠ 7 := by
  decide

/-- C4 (amended): on the two-line text with the severe line first, extraction
yields severe count 3 and warning count 0 (the anchored match cannot reach the
second line); on the equivalent single-line text it yields severe 3 and
warning 7; and on any text in which a pattern's literal does not occur at all,
that count is 0 rather than a parse failure. -/
theorem diagnostics_extraction_counts :
    severe_ct "...  3 Severe Errors...\n...  7 Warning...\n" = 3 ∧
    warning_ct "...  3 Severe Errors...\n...  7 Warning...\n" = 0 ∧
    severe_ct "...  3 Severe Errors...  7 Warning..." = 3 ∧
    warning_ct "...  3 Severe Errors...  7 Warning..." = 7 ∧
    (∀ s : String, ¬ "Severe Errors".data <:+: s.data → severe_ct s = 0) ∧
    (∀ s : String, ¬ "Warning".data <:+: s.data → warning_ct s = 0) := by
  refine ⟨by decide, by decide, by decide, by decide, ?_, ?_⟩
  · intro s h
    exact severe_ct_eq_zero s h
  · intro s h
    exact warning_ct_eq_zero s h

/-- Witness for C4 (amended): a summary text containing neither pattern
yields both counts 0. -/
theorem diagnostics_extraction_counts_instance :
    severe_ct "EnergyPlus Completed" = 0 ∧ warning_ct "EnergyPlus Completed" = 0 :=
  ⟨diagnostics_extraction_counts.2.2.2.2.1 "EnergyPlus Completed" (by decide),
   diagnostics_extraction_counts.2.2.2.2.2 "EnergyPlus Completed" (by decide)⟩

/-- C5 counterexample: a secondary `Schedule:File` object whose file
reference does not end with `rain` is NOT skipped — it replaces the primary's
schedule-file object, so the primary's category is changed. -/
theorem excluded_nonrain_object_not_skipped :
    add_sizing_design_day primaryA [("SCHEDULE:FILE", [csvObjA])] "SCHEDULE:FILE"
        = [csvObjA] ∧
      add_sizing_design_day primaryA [("SCHEDULE:FILE", [csvObjA])] "SCHEDULE:FILE"
        ≠ primaryA "SCHEDULE:FILE" := by
  decide

/-- C5 (amended): an object of an excluded category is skipped only when its
file reference DOES end with the sentinel suffix; when it does not, the object
is not skipped, and processing it replaces the primary's whole category with
just this object. -/
theorem excluded_nonrain_object_replaces
    (doc : IdfDoc) (t : String) (obj : IdfObject)
    (hexcl : pyUpper obj.key ∈ excludedKeys)
    (hnotrain : pyEndsWith (obj.file_Name.getD "rain") "rain" = false)
    (hwf : pyUpper obj.key = t) :
    skipsObject obj = false ∧ injectOne doc t obj t = [obj] := by
  have hns : skipsObject obj = false := by
    unfold skipsObject
    rw [hnotrain, Bool.and_false]
  exact ⟨hns, injectOne_apply_self doc t obj hns hwf⟩

/-- Witness for C5 (amended) on the concrete schedule-file object. -/
theorem excluded_nonrain_object_replaces_instance :
    skipsObject csvObjA = false ∧
      injectOne primaryA "SCHEDULE:FILE" csvObjA "SCHEDULE:FILE" = [csvObjA] :=
  excluded_nonrain_object_replaces primaryA "SCHEDULE:FILE" csvObjA
    (by decide) (by decide) (by decide)

/-- C6: an object of an excluded category whose file reference ends with the
sentinel suffix `rain` is skipped — processing it copies nothing and removes
nothing — and when the secondary's objects stored under the category are all
such objects, the primary's category is unchanged after the whole merge. -/
theorem excluded_rain_object_preserved
    (doc : IdfDoc) (t : String) (obj : IdfObject)
    (hexcl : pyUpper obj.key ∈ excludedKeys)
    (hrain : pyEndsWith (obj.file_Name.getD "rain") "rain" = true)
    (ddy : List (String × List IdfObject))
    (hskipAll : ∀ p ∈ ddy, p.1 = t → ∀ o ∈ p.2, skipsObject o = true)
    (hwf : ∀ p ∈ ddy, p.1 ≠ t → ∀ o ∈ p.2, t ≠ pyUpper o.key) :
    injectOne doc t obj = doc ∧ add_sizing_design_day doc ddy t = doc t := by
  have hs : skipsObject obj = true := by
    unfold skipsObject
    rw [hrain, decide_eq_true hexcl]
    rfl
  exact ⟨injectOne_of_skip doc t obj hs,
    add_sizing_apply_preserved t ddy doc hskipAll hwf⟩

/-- Witness for C6: the rain-file schedule object is skipped and the
primary's schedule-file category survives the merge unchanged. -/
theorem excluded_rain_object_preserved_instance :
    injectOne primaryA "SCHEDULE:FILE" rainObjA = primaryA ∧
      add_sizing_design_day primaryA [("SCHEDULE:FILE", [rainObjA])] "SCHEDULE:FILE"
        = primaryA "SCHEDULE:FILE" :=
  excluded_rain_object_preserved primaryA "SCHEDULE:FILE" rainObjA
    (by decide) (by decide) [("SCHEDULE:FILE", [rainObjA])] (by decide) (by decide)

/-- C7: for a non-excluded category present in the secondary document with at
least one object, after the merge the primary holds exactly one object of that
category — the last object of the secondary's sequence; every prior object of
the category, and every earlier secondary object of it, is gone. -/
theorem merge_last_object_wins
    (doc : IdfDoc) (pre post : List (String × List IdfObject))
    (t : String) (seq : List IdfObject) (hne : seq ≠ [])
    (ht : t ∉ excludedKeys)
    (hwfseq : ∀ o ∈ seq, pyUpper o.key = t)
    (hpost : ∀ p ∈ post, p.1 ≠ t)
    (hwfpost : ∀ p ∈ post, ∀ o ∈ p.2, pyUpper o.key = p.1) :
    add_sizing_design_day doc (pre ++ (t, seq) :: post) t = [seq.getLast hne] := by
  have hsplit : add_sizing_design_day doc (pre ++ (t, seq) :: post)
      = add_sizing_design_day
          (injectSeq (add_sizing_design_day doc pre) t seq) post := by
    unfold add_sizing_design_day
    rw [List.foldl_append, List.foldl_cons]
  rw [hsplit,
    add_sizing_apply_preserved t post _
      (fun p hp he => absurd he (hpost p hp))
      (fun p hp _ o ho => by
        rw [hwfpost p hp o ho]
        exact Ne.symm (hpost p hp))]
  exact injectSeq_apply_last t seq _ hne
    (fun o ho => skipsObject_eq_false_of_not_excluded o (by
      rw [hwfseq o ho]
      exact ht))
    hwfseq

/-- Witness for C7: merging a two-object design-day sequence into a primary
document leaves exactly the second (last) secondary object in the category. -/
theorem merge_last_object_wins_instance :
    add_sizing_design_day primaryB
        [("SIZINGPERIOD:DESIGNDAY", [ddObj1, ddObj2])] "SIZINGPERIOD:DESIGNDAY"
      = [ddObj2] :=
  merge_last_object_wins primaryB [] [] "SIZINGPERIOD:DESIGNDAY" [ddObj1, ddObj2]
    (by decide) (by decide) (by decide) (by decide) (by decide)

/-- C8 counterexample: on a concrete successful attempt there is no table
named `message_counts`; the diagnostics table is stored under the name
`energyplus_message_counts`. -/
theorem no_table_named_message_counts :
    (tablesOf (simulate specA "run-1"
        (EngineOutcome.success (some "ok") sqlA))).lookup "message_counts"
        = none ∧
      (tablesOf (simulate specA "run-1"
        (EngineOutcome.success (some "ok") sqlA))).lookup
          "energyplus_message_counts" ≠ none := by
  decide

/-- C8 (amended): for every attempt in which the engine call succeeds and the
summary file is readable, the returned table set contains a diagnostics table
under the name `energyplus_message_counts` whose single row has the two count
columns `warnings` and `severe` and is indexed by the canonical index. -/
theorem success_contains_energyplus_message_counts
    (spec : SimSpec) (rid endText : String)
    (sql : List (String × List (List Val))) :
    ∃ dfs, simulate spec rid (EngineOutcome.success (some endText) sql)
        = Except.ok dfs ∧
      ("energyplus_message_counts",
        { indexNames := (generate_index_data spec rid).map Prod.fst
        , columns := ["warnings", "severe"]
        , rows := [((generate_index_data spec rid).map Prod.snd,
                    [Val.n (warning_ct endText), Val.n (severe_ct endText)])] }) ∈ dfs := by
  refine ⟨_, rfl, ?_⟩
  exact List.mem_append_right _ (List.mem_singleton_self _)

/-- C9: when the engine call succeeds but the end-of-run summary file is
absent, the read exception propagates uncaught out of the simulate step and
no table set is returned; only an exception raised inside the engine call
itself yields the returned `err` table set. -/
theorem end_file_read_error_propagates
    (spec : SimSpec) (rid msg : String)
    (sql : List (String × List (List Val))) :
    simulate spec rid (EngineOutcome.success none sql)
        = Except.error "FileNotFoundError: eplusout.end" ∧
      ∃ dfs, simulate spec rid (EngineOutcome.failure msg) = Except.ok dfs :=
  ⟨rfl, ⟨_, rfl⟩⟩

/-- C10: an object of an excluded category with no `File_Name` attribute is
treated via the `getattr` default `"rain"`, which ends with the sentinel
suffix, so it is skipped and the primary document — including the object's
category — is unchanged. -/
theorem missing_file_name_treated_as_rain
    (doc : IdfDoc) (t : String) (obj : IdfObject)
    (hexcl : pyUpper obj.key ∈ excludedKeys)
    (hnone : obj.file_Name = none) :
    skipsObject obj = true ∧ injectOne doc t obj = doc ∧
      add_sizing_design_day doc [(t, [obj])] t = doc t := by
  have hs : skipsObject obj = true := by
    unfold skipsObject
    rw [hnone, decide_eq_true hexcl]
    rfl
  have hred : add_sizing_design_day doc [(t, [obj])] = injectOne doc t obj := rfl
  refine ⟨hs, injectOne_of_skip doc t obj hs, ?_⟩
  rw [hred, injectOne_of_skip doc t obj hs]

/-- Witness for C10: a `RoofIrrigation` object without a `File_Name` field is
skipped and the primary document's category is untouched. -/
theorem missing_file_name_treated_as_rain_instance :
    skipsObject roofObjA = true ∧
      injectOne primaryA "ROOFIRRIGATION" roofObjA = primaryA ∧
      add_sizing_design_day primaryA [("ROOFIRRIGATION", [roofObjA])] "ROOFIRRIGATION"
        = primaryA "ROOFIRRIGATION" :=
  missing_file_name_treated_as_rain primaryA "ROOFIRRIGATION" roofObjA
    (by decide) rfl
